import Mathlib

/-!
Shallow embedding of `epidemiology_models/compartmental_models.py`.

Python `dict<str, float>` values are modelled as association lists over `ℚ`
(`Dict`); dict indexing `d[k]`, which raises `KeyError` on a missing key, is
modelled by `Dict.find?` inside the `Option` monad, so an evaluation that
would raise in Python is `none` here.  The forward-Euler loop of
`BaseModel.get_numerical_results`, the three `_deriv` methods and the three
`get_R0` methods are translated line by line.  The pandas `DataFrame` built
at the end of `get_numerical_results` is modelled by a small record holding
the emitted states, the `timestamp` column and the row index.
-/

/-- Python `dict<str, float>`: an association list from keys to rationals,
kept in insertion order as CPython dicts are. -/
abbrev Dict := List (String × ℚ)

namespace Dict

/-- Python `d[k]` / `d.get(k)`: the value at the first matching key. -/
def find? (d : Dict) (k : String) : Option ℚ :=
  match d with
  | [] => none
  | kv :: rest => if kv.1 = k then some kv.2 else find? rest k

/-- Python `d[k] = v`: replace the value in place when the key is present
(keeping its position), otherwise append the new pair at the end. -/
def insert (d : Dict) (k : String) (v : ℚ) : Dict :=
  if (find? d k).isSome then
    d.map (fun kv => if kv.1 = k then (k, v) else kv)
  else
    d ++ [(k, v)]

/-- Sum of the values of a dict, used to state derivative-sum invariants. -/
def sumValues (d : Dict) : ℚ :=
  (d.map Prod.snd).sum

end Dict

/-- Body of `SIRModel._deriv` after the two default insertions: the three
assignments into `deriv` (lines 90-94 of the source), in source order.  Each
`p[...]`/`c[...]` read may fail with `KeyError`, hence `Option`. -/
def SIRModel.derivBody (p c : Dict) : Option Dict := do
  let Lam ← p.find? "Lambda"
  let mu ← p.find? "mu"
  let S ← c.find? "S"
  let beta ← p.find? "beta"
  let I ← c.find? "I"
  let N ← p.find? "N"
  let gamma ← p.find? "gamma"
  let R ← c.find? "R"
  let dS := (Lam - mu) * S - beta * I * S / N
  let dR := gamma * I - mu * R
  let dI := - dS - dR
  pure [("S", dS), ("R", dR), ("I", dI)]

/-- `SIRModel._deriv(p, c)`: copy `p`, default `Lambda` and `mu` to `0.0`
via `p.get(...)`, then build the derivative dict (source lines 87-94). -/
def SIRModel.deriv (p c : Dict) : Option Dict :=
  let pc := p
  let pc := pc.insert "Lambda" ((pc.find? "Lambda").getD 0)
  let pc := pc.insert "mu" ((pc.find? "mu").getD 0)
  SIRModel.derivBody pc c

/-- `SIRModel.get_R0`: `p['beta']/p['gamma']` (source lines 96-99). -/
def SIRModel.getR0 (p : Dict) : Option ℚ := do
  let beta ← p.find? "beta"
  let gamma ← p.find? "gamma"
  pure (beta / gamma)

/-- `SEIRModel._deriv(p, c)` (source lines 126-139): no defaults, all six
parameters and all four compartments are required. -/
def SEIRModel.deriv (p c : Dict) : Option Dict := do
  let lam ← p.find? "lambda"
  let mu ← p.find? "mu"
  let S ← c.find? "S"
  let beta ← p.find? "beta"
  let I ← c.find? "I"
  let N ← p.find? "N"
  let gamma ← p.find? "gamma"
  let R ← c.find? "R"
  let a ← p.find? "a"
  let E ← c.find? "E"
  let dS := (lam - mu) * S - beta * I * S / N
  let dR := gamma * I - mu * R
  let dI := a * E - (gamma + mu) * I
  let dE := - dI - dR - dS
  pure [("S", dS), ("R", dR), ("I", dI), ("E", dE)]

/-- `SEIRModel.get_R0`:
`p['a'] * p['beta'] / ((p['mu']+p['a']) * (p['mu']+p['gamma']))`
(source lines 141-144). -/
def SEIRModel.getR0 (p : Dict) : Option ℚ := do
  let a ← p.find? "a"
  let beta ← p.find? "beta"
  let mu ← p.find? "mu"
  let gamma ← p.find? "gamma"
  pure (a * beta / ((mu + a) * (mu + gamma)))

/-- `SISModel._deriv(p, c)` (source lines 166-177): the returned dict has
only the keys `S` and `I`. -/
def SISModel.deriv (p c : Dict) : Option Dict := do
  let gamma ← p.find? "gamma"
  let I ← c.find? "I"
  let beta ← p.find? "beta"
  let S ← c.find? "S"
  let N ← p.find? "N"
  let dS := gamma * I - beta * I * S / N
  pure [("S", dS), ("I", - dS)]

/-- `SISModel.get_R0`: `p['beta']/p['gamma']` (source lines 179-182). -/
def SISModel.getR0 (p : Dict) : Option ℚ := do
  let beta ← p.find? "beta"
  let gamma ← p.find? "gamma"
  pure (beta / gamma)

/-- The dict comprehension of source line 39:
`x = {k: (v + deriv[k] * dt_secs) for k, v in x.items()}`.
The lookup `deriv[k]` raises `KeyError` when the derivative dict lacks a key
of the state, hence `Option`. -/
def eulerStep (x d : Dict) (dt : ℚ) : Option Dict :=
  match x with
  | [] => some []
  | kv :: rest => do
    let dv ← d.find? kv.1
    let tail ← eulerStep rest d dt
    pure ((kv.1, kv.2 + dv * dt) :: tail)

/-- The `for i_sample in range(1, n_sample)` loop of source lines 37-40,
parametric in the derivative function `f` (the `self._deriv` dispatch):
given the current state `x`, produce the list of the `m` states emitted
after it. -/
def eulerLoop (f : Dict → Dict → Option Dict) (p : Dict) (dt : ℚ) :
    Nat → Dict → Option (List Dict)
  | 0, _ => some []
  | m + 1, x => do
    let d ← f p x
    let x2 ← eulerStep x d dt
    let rest ← eulerLoop f p dt m x2
    pure (x2 :: rest)

/-- `result_list` of `BaseModel.get_numerical_results` (source lines 34-40):
the copied initial condition followed by the Euler-advanced states.
`range(1, n_sample)` iterates `n_sample - 1` times (`0` times when
`n_sample ≤ 1`, matching Nat subtraction). -/
def resultList (f : Dict → Dict → Option Dict) (p x0 : Dict)
    (n : Nat) (dt : ℚ) : Option (List Dict) := do
  let rest ← eulerLoop f p dt (n - 1) x0
  pure (x0 :: rest)

/-- Row labels of the modelled pandas frame: either the default
`RangeIndex` (positional labels) or an index of timestamps, as produced by
`set_index('timestamp')`. -/
inductive DFIndex where
  | positional : List Nat → DFIndex
  | timestamps : List ℚ → DFIndex
deriving DecidableEq

/-- Minimal model of the pandas `DataFrame` built by
`get_numerical_results`: the emitted states (one per row), the `timestamp`
column (timestamps as seconds since the Unix epoch, UTC), and the row
index. -/
structure DataFrame where
  rows : List Dict
  timestampCol : List ℚ
  index : DFIndex
deriving DecidableEq

/-- Pandas `df.set_index('timestamp')`: returns a NEW frame whose index is
the timestamp column (the column itself moves into the index); without
`inplace=True` the receiver is unchanged, and source line 46 discards this
returned frame. -/
def DataFrame.setIndexTimestamp (df : DataFrame) : DataFrame :=
  { rows := df.rows, timestampCol := [], index := DFIndex.timestamps df.timestampCol }

/-- `BaseModel.get_numerical_results(n_sample, dt_secs, init_time=None)`
(source lines 27-47).  `init_time` is a timestamp modelled as rational
seconds since the Unix epoch; `None` defaults to
`datetime.fromtimestamp(0, tz=timezone.utc)`, i.e. `0`.  The assignment
`df['timestamp'] = [...]` raises when the list length differs from the row
count, hence the length guard.  The result of `df.set_index('timestamp')`
is discarded exactly as in the source. -/
def getNumericalResults (f : Dict → Dict → Option Dict) (p x0 : Dict)
    (n : Nat) (dt : ℚ) (initTime : Option ℚ) : Option DataFrame :=
  match resultList f p x0 n dt with
  | none => none
  | some traj =>
    let t0 := initTime.getD 0
    if n = traj.length then
      let df : DataFrame :=
        { rows := traj
          timestampCol := (List.range n).map (fun i : Nat => t0 + (i : ℚ) * dt)
          index := DFIndex.positional (List.range traj.length) }
      let _ := df.setIndexTimestamp
      some df
    else none

/-- `BaseModel.__init__` (source lines 12-17): the constructor stores the
two dicts verbatim and performs no validation, so it is a total function. -/
structure ModelData where
  params : Dict
  initialConditions : Dict
deriving DecidableEq

/-- `BaseModel.__init__(params, initial_conditions)`: store both dicts. -/
def BaseModel.init (p c : Dict) : ModelData :=
  { params := p, initialConditions := c }

namespace Dict

theorem find?_append (d1 d2 : Dict) (k : String) :
    find? (d1 ++ d2) k = (find? d1 k).or (find? d2 k) := by
  induction d1 with
  | nil => simp [find?]
  | cons kv rest ih =>
    by_cases h : kv.1 = k
    · simp [find?, h]
    · simp [find?, h, ih]

theorem find?_map_update_self (l : Dict) (k : String) (v : ℚ)
    (h : (find? l k).isSome) :
    find? (l.map (fun kv => if kv.1 = k then (k, v) else kv)) k = some v := by
  induction l with
  | nil => simp [find?] at h
  | cons kv tail ih =>
    by_cases hk : kv.1 = k
    · simp [find?, hk]
    · simp only [find?, hk, if_false] at h
      simp [find?, hk, ih h]

theorem find?_map_update_ne (l : Dict) (k k' : String) (v : ℚ) (h : k' ≠ k) :
    find? (l.map (fun kv => if kv.1 = k then (k, v) else kv)) k' = find? l k' := by
  induction l with
  | nil => simp [find?]
  | cons kv tail ih =>
    by_cases hk : kv.1 = k
    · have hkk : ¬k = k' := fun he => h he.symm
      have h1 : ¬kv.1 = k' := by rw [hk]; exact hkk
      simp [find?, hk, hkk, h1, ih]
    · by_cases hk' : kv.1 = k'
      · simp [find?, hk, hk', h]
      · simp [find?, hk, hk', ih]

theorem find?_insert_self (d : Dict) (k : String) (v : ℚ) :
    find? (insert d k v) k = some v := by
  unfold insert
  by_cases h : (find? d k).isSome
  · simpa [h] using find?_map_update_self d k v h
  · rw [Option.not_isSome_iff_eq_none] at h
    simp [h, find?_append, find?]

theorem find?_insert_ne (d : Dict) (k k' : String) (v : ℚ) (h : k' ≠ k) :
    find? (insert d k v) k' = find? d k' := by
  unfold insert
  by_cases hs : (find? d k).isSome
  · simpa [hs] using find?_map_update_ne d k k' v h
  · rw [Option.not_isSome_iff_eq_none] at hs
    simp [hs, find?_append, find?, Ne.symm h]

end Dict

theorem eulerLoop_length (f : Dict → Dict → Option Dict) (p : Dict) (dt : ℚ) :
    ∀ (m : Nat) (x : Dict) (l : List Dict),
      eulerLoop f p dt m x = some l → l.length = m := by
  intro m
  induction m with
  | zero => intro x l h; simp [eulerLoop] at h; simp [← h]
  | succ m ih =>
    intro x l h
    cases hd : f p x with
    | none => simp [eulerLoop, hd] at h
    | some d =>
      cases hs : eulerStep x d dt with
      | none => simp [eulerLoop, hd, hs] at h
      | some x2 =>
        cases hr : eulerLoop f p dt m x2 with
        | none => simp [eulerLoop, hd, hs, hr] at h
        | some rest =>
          simp [eulerLoop, hd, hs, hr] at h
          simp [← h, ih x2 rest hr]

/-- Inversion of one iteration of the Euler loop. -/
theorem eulerLoop_succ_inv (f : Dict → Dict → Option Dict) (p : Dict) (dt : ℚ)
    (m : Nat) (x : Dict) (l : List Dict)
    (h : eulerLoop f p dt (m + 1) x = some l) :
    ∃ d x2 rest, f p x = some d ∧ eulerStep x d dt = some x2 ∧
      eulerLoop f p dt m x2 = some rest ∧ l = x2 :: rest := by
  cases hd : f p x with
  | none => simp [eulerLoop, hd] at h
  | some d =>
    cases hs : eulerStep x d dt with
    | none => simp [eulerLoop, hd, hs] at h
    | some x2 =>
      cases hr : eulerLoop f p dt m x2 with
      | none => simp [eulerLoop, hd, hs, hr] at h
      | some rest =>
        simp [eulerLoop, hd, hs, hr] at h
        exact ⟨d, x2, rest, rfl, hs, hr, h.symm⟩

/-- Inversion of `resultList`. -/
theorem resultList_inv (f : Dict → Dict → Option Dict) (p x0 : Dict)
    (n : Nat) (dt : ℚ) (traj : List Dict)
    (h : resultList f p x0 n dt = some traj) :
    ∃ rest, eulerLoop f p dt (n - 1) x0 = some rest ∧ traj = x0 :: rest := by
  cases hr : eulerLoop f p dt (n - 1) x0 with
  | none => simp [resultList, hr] at h
  | some rest =>
    simp [resultList, hr] at h
    exact ⟨rest, rfl, h.symm⟩

/-- Inversion of `getNumericalResults`: on success the frame is exactly the
one built from the emitted states. -/
theorem getNumericalResults_inv (f : Dict → Dict → Option Dict) (p x0 : Dict)
    (n : Nat) (dt : ℚ) (it : Option ℚ) (df : DataFrame)
    (h : getNumericalResults f p x0 n dt it = some df) :
    ∃ traj, resultList f p x0 n dt = some traj ∧ n = traj.length ∧
      df = { rows := traj
             timestampCol := (List.range n).map (fun i : Nat => it.getD 0 + (i : ℚ) * dt)
             index := DFIndex.positional (List.range traj.length) } := by
  unfold getNumericalResults at h
  cases hr : resultList f p x0 n dt with
  | none => rw [hr] at h; exact absurd h (by simp)
  | some traj =>
    rw [hr] at h
    by_cases hn : n = traj.length
    · subst hn
      simp only [eq_self_iff_true, if_true, Option.some.injEq] at h
      exact ⟨traj, rfl, rfl, h.symm⟩
    · simp [hn] at h

/-- Evaluation of `SIRModel._deriv` when all required keys are present:
the defaults for `Lambda` and `mu` are read back out of the copied dict. -/
theorem SIRModel.deriv_eq (p c : Dict) (beta gamma N S I R : ℚ)
    (hb : p.find? "beta" = some beta) (hg : p.find? "gamma" = some gamma)
    (hN : p.find? "N" = some N) (hS : c.find? "S" = some S)
    (hI : c.find? "I" = some I) (hR : c.find? "R" = some R) :
    SIRModel.deriv p c =
      some [("S", ((p.find? "Lambda").getD 0 - (p.find? "mu").getD 0) * S
                    - beta * I * S / N),
            ("R", gamma * I - (p.find? "mu").getD 0 * R),
            ("I", - (((p.find? "Lambda").getD 0 - (p.find? "mu").getD 0) * S
                    - beta * I * S / N)
                  - (gamma * I - (p.find? "mu").getD 0 * R))] := by
  have hmuLam : ("mu" : String) ≠ "Lambda" := by decide
  have hLammu : ("Lambda" : String) ≠ "mu" := by decide
  have hbLam : ("beta" : String) ≠ "Lambda" := by decide
  have hbmu : ("beta" : String) ≠ "mu" := by decide
  have hNLam : ("N" : String) ≠ "Lambda" := by decide
  have hNmu : ("N" : String) ≠ "mu" := by decide
  have hgLam : ("gamma" : String) ≠ "Lambda" := by decide
  have hgmu : ("gamma" : String) ≠ "mu" := by decide
  unfold SIRModel.deriv SIRModel.derivBody
  simp [Dict.find?_insert_self, Dict.find?_insert_ne _ _ _ _ hmuLam,
        Dict.find?_insert_ne _ _ _ _ hLammu,
        Dict.find?_insert_ne _ _ _ _ hbLam, Dict.find?_insert_ne _ _ _ _ hbmu,
        Dict.find?_insert_ne _ _ _ _ hNLam, Dict.find?_insert_ne _ _ _ _ hNmu,
        Dict.find?_insert_ne _ _ _ _ hgLam, Dict.find?_insert_ne _ _ _ _ hgmu,
        hb, hg, hN, hS, hI, hR]

/-- C3: for every parameter mapping containing `beta`, `gamma`, `N` and
every state mapping containing `S`, `I`, `R`, `SIRModel._deriv` returns
`{S: (Lambda - mu)*S - beta*I*S/N, R: gamma*I - mu*R, I: -dS/dt - dR/dt}`,
with `Lambda` and `mu` defaulting to `0` when absent from the parameters. -/
theorem C3_sir_deriv_formula (p c : Dict) (beta gamma N S I R : ℚ)
    (hb : p.find? "beta" = some beta) (hg : p.find? "gamma" = some gamma)
    (hN : p.find? "N" = some N) (hS : c.find? "S" = some S)
    (hI : c.find? "I" = some I) (hR : c.find? "R" = some R) :
    SIRModel.deriv p c =
      some [("S", ((p.find? "Lambda").getD 0 - (p.find? "mu").getD 0) * S
                    - beta * I * S / N),
            ("R", gamma * I - (p.find? "mu").getD 0 * R),
            ("I", - (((p.find? "Lambda").getD 0 - (p.find? "mu").getD 0) * S
                    - beta * I * S / N)
                  - (gamma * I - (p.find? "mu").getD 0 * R))] :=
  SIRModel.deriv_eq p c beta gamma N S I R hb hg hN hS hI hR

/-- Witness for C3 at a concrete parameter/state pair (with `Lambda`, `mu`
absent, hence defaulted to `0`). -/
theorem C3_sir_deriv_formula_witness :
    SIRModel.deriv [("beta", 2), ("gamma", 3), ("N", 5)]
        [("S", 7), ("I", 11), ("R", 13)] =
      some [("S", -154/5), ("R", 33), ("I", -11/5)] := by
  have h := C3_sir_deriv_formula [("beta", 2), ("gamma", 3), ("N", 5)]
    [("S", 7), ("I", 11), ("R", 13)] 2 3 5 7 11 13 rfl rfl rfl rfl rfl rfl
  rw [h]
  simp [Dict.find?]
  norm_num

/-- C2: for every model variant (any derivative function), every
`n_sample ≥ 1` and every `dt_secs`, a returned trajectory has exactly
`n_sample` entries and entry 0 equals the initial condition passed at
construction exactly, with no integration step applied to it. -/
theorem C2_trajectory_length_and_initial_sample
    (f : Dict → Dict → Option Dict) (p x0 : Dict) (n : Nat) (dt : ℚ)
    (it : Option ℚ) (df : DataFrame) (hn : 1 ≤ n)
    (h : getNumericalResults f p x0 n dt it = some df) :
    df.rows.length = n ∧ df.rows[0]? = some x0 := by
  obtain ⟨traj, htraj, hlen, hdf⟩ := getNumericalResults_inv f p x0 n dt it df h
  obtain ⟨rest, _, htr⟩ := resultList_inv f p x0 n dt traj htraj
  subst hdf
  subst htr
  exact ⟨hlen.symm, by simp⟩

/-- Witness for C2 at a concrete one-sample run. -/
theorem C2_trajectory_length_and_initial_sample_witness :
    ∃ df, getNumericalResults SIRModel.deriv [] [("S", (1:ℚ))] 1 1 none = some df ∧
      df.rows.length = 1 ∧ df.rows[0]? = some [("S", (1:ℚ))] := by
  have hrun : getNumericalResults SIRModel.deriv [] [("S", (1:ℚ))] 1 1 none =
      some { rows := [[("S", (1:ℚ))]], timestampCol := [0 + (0:ℚ) * 1],
             index := DFIndex.positional [0] } := rfl
  obtain ⟨h1, h2⟩ := C2_trajectory_length_and_initial_sample SIRModel.deriv []
    [("S", (1:ℚ))] 1 1 none _ (by norm_num) hrun
  exact ⟨_, hrun, h1, h2⟩

/-- C7: every `get_R0` is a closed form over the stored parameters only:
`beta/gamma` for SIR and SIS (so `beta=0.0002`, `gamma=0.0001` gives `2` for
both), and `(a/(mu+a))*(beta/(mu+gamma))` for SEIR (so `beta=1/(3*86400)`,
`gamma=a=1/(14*86400)`, `mu=0` gives `14/3 ≈ 4.6666667`). -/
theorem C7_r0_closed_forms :
    (∀ (p : Dict) (beta gamma : ℚ), p.find? "beta" = some beta →
      p.find? "gamma" = some gamma →
      SIRModel.getR0 p = some (beta / gamma) ∧
      SISModel.getR0 p = some (beta / gamma)) ∧
    (∀ (p : Dict) (a beta mu gamma : ℚ), p.find? "a" = some a →
      p.find? "beta" = some beta → p.find? "mu" = some mu →
      p.find? "gamma" = some gamma →
      SEIRModel.getR0 p = some (a / (mu + a) * (beta / (mu + gamma)))) ∧
    SIRModel.getR0 [("beta", 0.0002), ("gamma", 0.0001), ("N", 10000000)] = some 2 ∧
    SISModel.getR0 [("beta", 0.0002), ("gamma", 0.0001), ("N", 10000000)] = some 2 ∧
    SEIRModel.getR0 [("beta", 1 / (3 * 86400)), ("gamma", 1 / (14 * 86400)),
      ("a", 1 / (14 * 86400)), ("mu", 0), ("lambda", 0), ("N", 66440000)] =
      some (14 / 3) := by
  refine ⟨?_, ?_, ?_, ?_, ?_⟩
  · intro p beta gamma hb hg
    constructor <;> simp [SIRModel.getR0, SISModel.getR0, hb, hg]
  · intro p a beta mu gamma ha hb hm hg
    simp [SEIRModel.getR0, ha, hb, hm, hg, div_mul_div_comm]
  · simp [SIRModel.getR0, Dict.find?]
    norm_num
  · simp [SISModel.getR0, Dict.find?]
    norm_num
  · simp [SEIRModel.getR0, Dict.find?]
    norm_num

/-- Witness for C7's closed forms at concrete parameter dicts. -/
theorem C7_r0_closed_forms_witness :
    SIRModel.getR0 [("beta", 4), ("gamma", 2)] = some (4 / 2) ∧
    SISModel.getR0 [("beta", 4), ("gamma", 2)] = some (4 / 2) ∧
    SEIRModel.getR0 [("a", 1), ("beta", 6), ("mu", 0), ("gamma", 3)] =
      some (1 / (0 + 1) * (6 / (0 + 3))) := by
  obtain ⟨h1, h2⟩ := C7_r0_closed_forms.1 [("beta", 4), ("gamma", 2)] 4 2
    (by simp [Dict.find?]) (by simp [Dict.find?])
  have h3 := C7_r0_closed_forms.2.1 [("a", 1), ("beta", 6), ("mu", 0), ("gamma", 3)]
    1 6 0 3 (by simp [Dict.find?]) (by simp [Dict.find?]) (by simp [Dict.find?])
    (by simp [Dict.find?])
  exact ⟨h1, h2, h3⟩

/-- C8: construction stores the dicts verbatim and never fails; a run with
`n_sample = 1` never evaluates the derivative and succeeds even when
required keys are missing; and when the first derivative evaluation fails
(missing key), the run propagates the failure and returns no partial
trajectory. -/
theorem C8_lazy_key_validation :
    (∀ p c : Dict, BaseModel.init p c = { params := p, initialConditions := c }) ∧
    (∀ (f : Dict → Dict → Option Dict) (p x0 : Dict) (dt : ℚ) (it : Option ℚ),
      ∃ df, getNumericalResults f p x0 1 dt it = some df ∧ df.rows = [x0]) ∧
    (∀ (f : Dict → Dict → Option Dict) (p x0 : Dict) (n : Nat) (dt : ℚ)
      (it : Option ℚ), 2 ≤ n → f p x0 = none →
      getNumericalResults f p x0 n dt it = none) := by
  refine ⟨fun p c => rfl, ?_, ?_⟩
  · intro f p x0 dt it
    exact ⟨_, rfl, rfl⟩
  · intro f p x0 n dt it hn hf
    obtain ⟨m, rfl⟩ : ∃ m, n = m + 2 := ⟨n - 2, by omega⟩
    simp [getNumericalResults, resultList, eulerLoop, hf]

/-- Witness for C8: `SIRModel` with an empty parameter dict (missing
`beta`): a two-sample run fails outright, a one-sample run succeeds. -/
theorem C8_lazy_key_validation_witness :
    getNumericalResults SIRModel.deriv [] [("S", 1), ("I", 1), ("R", 1)] 2 1 none
      = none ∧
    (∃ df, getNumericalResults SIRModel.deriv [] [("S", 1), ("I", 1), ("R", 1)] 1 1 none
      = some df ∧ df.rows = [[("S", 1), ("I", 1), ("R", 1)]]) := by
  constructor
  · refine C8_lazy_key_validation.2.2 SIRModel.deriv [] _ 2 1 none (by norm_num) ?_
    simp [SIRModel.deriv, SIRModel.derivBody, Dict.insert, Dict.find?]
  · exact C8_lazy_key_validation.2.1 SIRModel.deriv [] _ 1 none

/-- C10: with `init_time` omitted, the `timestamp` column of the returned
frame holds the epoch plus `i*dt_secs` seconds for row `i`, while the
result of `set_index('timestamp')` is discarded, so the row index stays the
default positional `0..n_sample-1`. -/
theorem C10_epoch_timestamps_and_positional_index
    (f : Dict → Dict → Option Dict) (p x0 : Dict) (n : Nat) (dt : ℚ)
    (df : DataFrame) (h : getNumericalResults f p x0 n dt none = some df) :
    df.timestampCol = (List.range n).map (fun i : Nat => (i : ℚ) * dt) ∧
    df.index = DFIndex.positional (List.range n) := by
  obtain ⟨traj, _, hlen, hdf⟩ := getNumericalResults_inv f p x0 n dt none df h
  subst hdf
  constructor
  · simp
  · simp [← hlen]

/-- Witness for C10 at a concrete two-sample run. -/
theorem C10_epoch_timestamps_and_positional_index_witness :
    ∃ df, getNumericalResults SISModel.deriv [("beta", 0), ("gamma", 0), ("N", 1)]
        [("S", 1), ("I", 1)] 2 3 none = some df ∧
      df.timestampCol = [0, (3:ℚ)] ∧ df.index = DFIndex.positional [0, 1] := by
  have hrun : getNumericalResults SISModel.deriv [("beta", 0), ("gamma", 0), ("N", 1)]
      [("S", 1), ("I", 1)] 2 3 none =
      some { rows := [[("S", 1), ("I", 1)],
                      [("S", 1 + (0 * 1 - 0 * 1 * 1 / 1) * 3),
                       ("I", 1 + -(0 * 1 - 0 * 1 * 1 / 1) * 3)]],
             timestampCol := [0 + (0:ℚ) * 3, 0 + (1:ℚ) * 3],
             index := DFIndex.positional [0, 1] } := rfl
  obtain ⟨h1, h2⟩ := C10_epoch_timestamps_and_positional_index SISModel.deriv
    [("beta", 0), ("gamma", 0), ("N", 1)] [("S", 1), ("I", 1)] 2 3 _ hrun
  refine ⟨_, hrun, ?_, ?_⟩
  · rw [h1]; norm_num [List.range_succ]
  · rw [h2]; norm_num [List.range_succ]

/-- Every emitted state after the first is obtained from its predecessor by
one derivative evaluation followed by one Euler update. -/
theorem eulerLoop_chain (f : Dict → Dict → Option Dict) (p : Dict) (dt : ℚ) :
    ∀ (m : Nat) (x : Dict) (l : List Dict), eulerLoop f p dt m x = some l →
      ∀ i : Nat, i < m → ∃ prev d next,
        (x :: l)[i]? = some prev ∧ f p prev = some d ∧
        eulerStep prev d dt = some next ∧ l[i]? = some next := by
  intro m
  induction m with
  | zero => intro x l _ i hi; omega
  | succ m ih =>
    intro x l h i hi
    obtain ⟨d, x2, rest, hd, hs, hr, rfl⟩ := eulerLoop_succ_inv f p dt m x l h
    cases i with
    | zero => exact ⟨x, d, x2, by simp, hd, hs, by simp⟩
    | succ j =>
      obtain ⟨prev, d2, next, hp, hd2, hs2, hnx⟩ := ih x2 rest hr j (by omega)
      exact ⟨prev, d2, next, by simpa using hp, hd2, hs2, by simpa using hnx⟩

/-- C1: for every model variant (any derivative function `f`), every
`n_sample ≥ 2`, every `dt_secs`, and every `1 ≤ i ≤ n_sample - 1`, entry `i`
of the returned trajectory is `eulerStep prev d dt` — the mapping
`{k: prev[k] + d[k]*dt_secs for every compartment key k of prev}` — where
`prev` is entry `i-1` and `d = f p prev` is recomputed fresh from the
stored parameters and the previous entry. -/
theorem C1_forward_euler_recurrence (f : Dict → Dict → Option Dict)
    (p x0 : Dict) (n : Nat) (dt : ℚ) (it : Option ℚ) (df : DataFrame)
    (i : Nat) (prev : Dict) (h : getNumericalResults f p x0 n dt it = some df)
    (hi1 : 1 ≤ i) (hin : i < n) (hprev : df.rows[i - 1]? = some prev) :
    ∃ d next, f p prev = some d ∧ eulerStep prev d dt = some next ∧
      df.rows[i]? = some next := by
  obtain ⟨traj, htraj, hlen, hdf⟩ := getNumericalResults_inv f p x0 n dt it df h
  obtain ⟨rest, hre, htr⟩ := resultList_inv f p x0 n dt traj htraj
  subst hdf
  subst htr
  have hrl : rest.length = n - 1 := eulerLoop_length f p dt (n - 1) x0 rest hre
  obtain ⟨prev', d, next, hp, hd, hs, hnx⟩ :=
    eulerLoop_chain f p dt (n - 1) x0 rest hre (i - 1) (by omega)
  have hpe : prev' = prev := by
    have := hp.symm.trans hprev
    exact Option.some.inj this
  subst hpe
  refine ⟨d, next, hd, hs, ?_⟩
  have hi : i = (i - 1) + 1 := by omega
  rw [hi, List.getElem?_cons_succ]
  exact hnx

/-- Witness for C1 at a concrete two-sample SIS run. -/
theorem C1_forward_euler_recurrence_witness :
    ∃ d next,
      SISModel.deriv [("beta", 0), ("gamma", 0), ("N", 1)] [("S", 1), ("I", 1)]
        = some d ∧
      eulerStep [("S", 1), ("I", 1)] d 1 = some next ∧
      ({ rows := [[("S", 1), ("I", 1)],
                  [("S", 1 + (0 * 1 - 0 * 1 * 1 / 1) * 1),
                   ("I", 1 + -(0 * 1 - 0 * 1 * 1 / 1) * 1)]],
         timestampCol := [0 + (0:ℚ) * 1, 0 + (1:ℚ) * 1],
         index := DFIndex.positional [0, 1] } : DataFrame).rows[1]? = some next := by
  have hrun : getNumericalResults SISModel.deriv [("beta", 0), ("gamma", 0), ("N", 1)]
      [("S", 1), ("I", 1)] 2 1 none =
      some { rows := [[("S", 1), ("I", 1)],
                      [("S", 1 + (0 * 1 - 0 * 1 * 1 / 1) * 1),
                       ("I", 1 + -(0 * 1 - 0 * 1 * 1 / 1) * 1)]],
             timestampCol := [0 + (0:ℚ) * 1, 0 + (1:ℚ) * 1],
             index := DFIndex.positional [0, 1] } := rfl
  exact C1_forward_euler_recurrence SISModel.deriv
    [("beta", 0), ("gamma", 0), ("N", 1)] [("S", 1), ("I", 1)] 2 1 none _ 1
    [("S", 1), ("I", 1)] hrun (by norm_num) (by norm_num) rfl

/-- C4: the per-compartment derivative values sum to exactly 0 — for
`SIRModel._deriv` when `Lambda` and `mu` (defaulted when absent) are 0, and
for `SEIRModel._deriv` and `SISModel._deriv` on every input on which they
succeed. -/
theorem C4_derivative_sum_invariant :
    (∀ (p c : Dict) (beta gamma N S I R : ℚ) (d : Dict),
      (p.find? "Lambda").getD 0 = 0 → (p.find? "mu").getD 0 = 0 →
      p.find? "beta" = some beta → p.find? "gamma" = some gamma →
      p.find? "N" = some N → c.find? "S" = some S → c.find? "I" = some I →
      c.find? "R" = some R → SIRModel.deriv p c = some d →
      d.sumValues = 0) ∧
    (∀ p c d : Dict, SEIRModel.deriv p c = some d → d.sumValues = 0) ∧
    (∀ p c d : Dict, SISModel.deriv p c = some d → d.sumValues = 0) := by
  refine ⟨?_, ?_, ?_⟩
  · intro p c beta gamma N S I R d hL hm hb hg hN hS hI hR h
    rw [SIRModel.deriv_eq p c beta gamma N S I R hb hg hN hS hI hR] at h
    rw [hL, hm] at h
    cases Option.some.inj h
    simp [Dict.sumValues]
  · intro p c d h
    simp only [SEIRModel.deriv, bind, Option.bind_eq_some, Option.pure_def,
      Option.some.injEq] at h
    obtain ⟨lam, _, mu, _, S, _, beta, _, I, _, N, _, gamma, _, R, _, a, _, E, _, hd⟩ := h
    subst hd
    simp [Dict.sumValues]
    ring
  · intro p c d h
    simp only [SISModel.deriv, bind, Option.bind_eq_some, Option.pure_def,
      Option.some.injEq] at h
    obtain ⟨gamma, _, I, _, beta, _, S, _, N, _, hd⟩ := h
    subst hd
    simp [Dict.sumValues]

/-- Witness for C4 at concrete valid parameter/state dicts for each model. -/
theorem C4_derivative_sum_invariant_witness :
    ∃ d1 d2 d3 : Dict,
      SIRModel.deriv [("beta", 1), ("gamma", 1), ("N", 1)]
        [("S", 1), ("I", 1), ("R", 1)] = some d1 ∧ d1.sumValues = 0 ∧
      SEIRModel.deriv
        [("lambda", 0), ("mu", 0), ("beta", 1), ("N", 1), ("gamma", 1), ("a", 1)]
        [("S", 1), ("I", 1), ("E", 1), ("R", 1)] = some d2 ∧ d2.sumValues = 0 ∧
      SISModel.deriv [("beta", 1), ("gamma", 1), ("N", 1)]
        [("S", 1), ("I", 1)] = some d3 ∧ d3.sumValues = 0 := by
  have h1 : SIRModel.deriv [("beta", 1), ("gamma", 1), ("N", 1)]
      [("S", 1), ("I", 1), ("R", 1)] = some [("S", -1), ("R", 1), ("I", 0)] := by
    rw [SIRModel.deriv_eq _ _ 1 1 1 1 1 1 (by simp [Dict.find?]) (by simp [Dict.find?])
      (by simp [Dict.find?]) (by simp [Dict.find?]) (by simp [Dict.find?])
      (by simp [Dict.find?])]
    simp [Dict.find?]
  have h2 : SEIRModel.deriv
      [("lambda", 0), ("mu", 0), ("beta", 1), ("N", 1), ("gamma", 1), ("a", 1)]
      [("S", 1), ("I", 1), ("E", 1), ("R", 1)] =
      some [("S", -1), ("R", 1), ("I", 0), ("E", 0)] := by
    simp [SEIRModel.deriv, Dict.find?]
  have h3 : SISModel.deriv [("beta", 1), ("gamma", 1), ("N", 1)]
      [("S", 1), ("I", 1)] = some [("S", 0), ("I", 0)] := by
    simp [SISModel.deriv, Dict.find?]
  refine ⟨_, _, _, h1, ?_, h2, ?_, h3, ?_⟩
  · exact C4_derivative_sum_invariant.1 _ _ 1 1 1 1 1 1 _ (by simp [Dict.find?])
      (by simp [Dict.find?]) (by simp [Dict.find?]) (by simp [Dict.find?])
      (by simp [Dict.find?]) (by simp [Dict.find?]) (by simp [Dict.find?])
      (by simp [Dict.find?]) h1
  · exact C4_derivative_sum_invariant.2.1 _ _ _ h2
  · exact C4_derivative_sum_invariant.2.2 _ _ _ h3

/-- `SISModel._deriv` on a two-compartment state `{S: s, I: i}`. -/
theorem SISModel.deriv_pair (p : Dict) (beta gamma N s i : ℚ)
    (hb : p.find? "beta" = some beta) (hg : p.find? "gamma" = some gamma)
    (hN : p.find? "N" = some N) :
    SISModel.deriv p [("S", s), ("I", i)] =
      some [("S", gamma * i - beta * i * s / N),
            ("I", -(gamma * i - beta * i * s / N))] := by
  simp [SISModel.deriv, hb, hg, hN, Dict.find?]

/-- One Euler update of a two-compartment state by an `{S, I}` derivative
dict. -/
theorem eulerStep_pair (s i dS dt : ℚ) :
    eulerStep [("S", s), ("I", i)] [("S", dS), ("I", -dS)] dt =
      some [("S", s + dS * dt), ("I", i + -dS * dt)] := by
  simp [eulerStep, Dict.find?]

/-- The SIS Euler loop keeps every emitted state of the form
`{S: s2, I: i2}` with `s2 + i2` equal to the initial compartment total. -/
theorem sis_loop_conserves (p : Dict) (beta gamma N dt : ℚ)
    (hb : p.find? "beta" = some beta) (hg : p.find? "gamma" = some gamma)
    (hN : p.find? "N" = some N) :
    ∀ (m : Nat) (s i : ℚ) (l : List Dict),
      eulerLoop SISModel.deriv p dt m [("S", s), ("I", i)] = some l →
      ∀ (j : Nat) (e : Dict), l[j]? = some e →
        ∃ s2 i2, e = [("S", s2), ("I", i2)] ∧ s2 + i2 = s + i := by
  intro m
  induction m with
  | zero =>
    intro s i l h j e he
    simp [eulerLoop] at h
    subst h
    simp at he
  | succ m ih =>
    intro s i l h j e he
    obtain ⟨d, x2, rest, hd, hs, hr, rfl⟩ := eulerLoop_succ_inv _ p dt m _ l h
    rw [SISModel.deriv_pair p beta gamma N s i hb hg hN] at hd
    cases Option.some.inj hd
    rw [eulerStep_pair] at hs
    cases Option.some.inj hs
    cases j with
    | zero =>
      simp only [List.getElem?_cons_zero, Option.some.injEq] at he
      subst he
      exact ⟨_, _, rfl, by ring⟩
    | succ jj =>
      obtain ⟨s2, i2, he2, hsum⟩ := ih _ _ rest hr jj e (by simpa using he)
      exact ⟨s2, i2, he2, by rw [hsum]; ring⟩

/-- C6 counterexample to the claim as stated: a valid-parameter SIS run
whose initial condition does not satisfy `S + I = N`; sample 0 of the
returned trajectory violates `S[i] + I[i] = N`. -/
theorem C6_counterexample_initial_total_ne_N :
    ∃ df, getNumericalResults SISModel.deriv
        [("beta", 1), ("gamma", 1), ("N", 10)] [("S", 1), ("I", 1)] 1 1 none
        = some df ∧
      df.rows[0]? = some [("S", 1), ("I", 1)] ∧
      Dict.find? [("S", 1), ("I", 1)] "S" = some 1 ∧
      Dict.find? [("S", 1), ("I", 1)] "I" = some 1 ∧
      (1 : ℚ) + 1 ≠ 10 := by
  refine ⟨_, rfl, rfl, by simp [Dict.find?], by simp [Dict.find?], by norm_num⟩

/-- C6 (amended): for every SIS run with valid parameters whose initial
condition is a state `{S: s0, I: i0}` with `s0 + i0 = N`, every sample of
the returned trajectory satisfies `S + I = N` exactly. -/
theorem C6_sis_population_conservation (p : Dict) (beta gamma N s0 i0 dt : ℚ)
    (n : Nat) (it : Option ℚ) (df : DataFrame)
    (hb : p.find? "beta" = some beta) (hg : p.find? "gamma" = some gamma)
    (hN : p.find? "N" = some N) (hsum : s0 + i0 = N)
    (h : getNumericalResults SISModel.deriv p [("S", s0), ("I", i0)] n dt it
      = some df) :
    ∀ (j : Nat) (e : Dict), df.rows[j]? = some e →
      ∃ s i : ℚ, e.find? "S" = some s ∧ e.find? "I" = some i ∧ s + i = N := by
  obtain ⟨traj, htraj, _, hdf⟩ := getNumericalResults_inv _ p _ n dt it df h
  obtain ⟨rest, hre, htr⟩ := resultList_inv _ p _ n dt traj htraj
  subst hdf
  subst htr
  intro j e he
  cases j with
  | zero =>
    simp only [List.getElem?_cons_zero, Option.some.injEq] at he
    subst he
    exact ⟨s0, i0, by simp [Dict.find?], by simp [Dict.find?], hsum⟩
  | succ jj =>
    obtain ⟨s2, i2, he2, hsum2⟩ := sis_loop_conserves p beta gamma N dt hb hg hN
      (n - 1) s0 i0 rest hre jj e (by simpa using he)
    subst he2
    exact ⟨s2, i2, by simp [Dict.find?], by simp [Dict.find?], by rw [hsum2, hsum]⟩

/-- Witness for C6 (amended) at a concrete conserving run. -/
theorem C6_sis_population_conservation_witness :
    ∃ e : Dict, ∃ s i : ℚ,
      (getNumericalResults SISModel.deriv [("beta", 1), ("gamma", 1), ("N", 2)]
        [("S", 1), ("I", 1)] 1 1 none =
        some { rows := [[("S", 1), ("I", 1)]], timestampCol := [0 + (0:ℚ) * 1],
               index := DFIndex.positional [0] }) ∧
      [[("S", (1:ℚ)), ("I", 1)]][0]? = some e ∧
      e.find? "S" = some s ∧ e.find? "I" = some i ∧ s + i = 2 := by
  have hrun : getNumericalResults SISModel.deriv [("beta", 1), ("gamma", 1), ("N", 2)]
      [("S", 1), ("I", 1)] 1 1 none =
      some { rows := [[("S", 1), ("I", 1)]], timestampCol := [0 + (0:ℚ) * 1],
             index := DFIndex.positional [0] } := rfl
  obtain ⟨s, i, hS, hI, hsum⟩ := C6_sis_population_conservation
    [("beta", 1), ("gamma", 1), ("N", 2)] 1 1 2 1 1 1 1 none _
    (by simp [Dict.find?]) (by simp [Dict.find?]) (by simp [Dict.find?])
    (by norm_num) hrun 0 [("S", 1), ("I", 1)] (by simp)
  exact ⟨[("S", 1), ("I", 1)], s, i, hrun, by simp, hS, hI, hsum⟩

/-- C5 (code behaviour at the spec's input): an SIS run whose initial state
includes an `R` key fails with `KeyError` at the first Euler update as soon
as `n_sample ≥ 2` — `SISModel._deriv` itself succeeds (its docstring even
promises an `R` key in its result) but returns only `{S, I}`, so the update
`x[k] + deriv[k]*dt` aborts at `k = 'R'`.  With `n_sample = 1` the same run
succeeds. -/
theorem C5_sis_run_with_R_key_raises :
    getNumericalResults SISModel.deriv [("beta", 1), ("gamma", 1), ("N", 2)]
      [("S", 1), ("I", 1), ("R", 0)] 2 1 none = none ∧
    (SISModel.deriv [("beta", 1), ("gamma", 1), ("N", 2)]
      [("S", 1), ("I", 1), ("R", 0)]).isSome = true ∧
    eulerStep [("S", 1), ("I", 1), ("R", 0)]
      [("S", 1 - 1 * 1 * 1 / 2), ("I", -(1 - 1 * 1 * 1 / 2))] 1 = none ∧
    (∃ df, getNumericalResults SISModel.deriv [("beta", 1), ("gamma", 1), ("N", 2)]
      [("S", 1), ("I", 1), ("R", 0)] 1 1 none = some df ∧
      df.rows = [[("S", 1), ("I", 1), ("R", 0)]]) := by
  refine ⟨?_, ?_, ?_, ⟨_, rfl, rfl⟩⟩
  · simp [getNumericalResults, resultList, eulerLoop, eulerStep,
      SISModel.deriv, Dict.find?]
  · simp [SISModel.deriv, Dict.find?]
  · simp [eulerStep, Dict.find?]


/-- Reference to a Python dict object: dicts are heap objects passed by
reference, so mutation claims are stated against an explicit store. -/
abbrev Ref := Nat

/-- Heap of dict objects: index `r` holds the object `r` refers to;
allocation appends at the end. -/
abbrev Store := List Dict

namespace Store

/-- Contents of the object `r` refers to. -/
def read (σ : Store) (r : Ref) : Dict := σ.getD r []

/-- In-place mutation of the object `r` refers to. -/
def write (σ : Store) (r : Ref) (d : Dict) : Store := σ.set r d

/-- Allocation of a fresh dict object, returning the new store and the
fresh reference. -/
def alloc (σ : Store) (d : Dict) : Store × Ref := (σ ++ [d], σ.length)

end Store

/-- Store `σ2` extends `σ`: it is at least as long and every object that
already existed in `σ` has unchanged contents. -/
def StoreExtends (σ σ2 : Store) : Prop :=
  σ.length ≤ σ2.length ∧ ∀ r, r < σ.length → σ2.read r = σ.read r

theorem storeExtends_refl (σ : Store) : StoreExtends σ σ :=
  ⟨le_refl _, fun _ _ => rfl⟩

theorem storeExtends_trans {σ1 σ2 σ3 : Store}
    (h1 : StoreExtends σ1 σ2) (h2 : StoreExtends σ2 σ3) : StoreExtends σ1 σ3 :=
  ⟨le_trans h1.1 h2.1, fun r hr => (h2.2 r (lt_of_lt_of_le hr h1.1)).trans (h1.2 r hr)⟩

theorem storeExtends_alloc (σ : Store) (d : Dict) : StoreExtends σ (σ.alloc d).1 := by
  refine ⟨by simp [Store.alloc], fun r hr => ?_⟩
  simp [Store.alloc, Store.read, List.getD, List.getElem?_append, hr]

theorem storeExtends_write_fresh {σ σ2 : Store} (w : Ref) (d : Dict)
    (h : StoreExtends σ σ2) (hw : σ.length ≤ w) :
    StoreExtends σ (σ2.write w d) := by
  refine ⟨le_trans h.1 (by simp [Store.write]), fun r hr => ?_⟩
  rw [← h.2 r hr]
  simp only [Store.write, Store.read, List.getD, List.get?_eq_getElem?]
  rw [List.getElem?_set_ne (ne_of_gt (lt_of_lt_of_le hr hw))]

/-- Allocation of a computed dict when its computation did not raise. -/
def allocOption (σ : Store) (od : Option Dict) : Option (Store × Ref) :=
  match od with
  | none => none
  | some dd => some (σ.alloc dd)

theorem allocOption_extends (σ : Store) (od : Option Dict) (σ2 : Store) (d : Ref)
    (h : allocOption σ od = some (σ2, d)) : StoreExtends σ σ2 := by
  cases od with
  | none => exact absurd h (by simp [allocOption])
  | some dd =>
    have : σ2 = (σ.alloc dd).1 := by
      simpa [allocOption] using congrArg (fun sr : Store × Ref => sr.1) (Option.some.inj h).symm
    rw [this]
    exact storeExtends_alloc σ dd

/-- Heap-level `SIRModel._deriv` (source lines 78-94) with Python object
semantics: `p = p.copy()` allocates a fresh dict, the two default-insertion
assignments mutate that copy only, and the `deriv` dict built by
`SIRModel.derivBody` is allocated fresh.  Returns the updated store and a
reference to the derivative dict. -/
def SIRModel.derivH (σ : Store) (p c : Ref) : Option (Store × Ref) :=
  let σ1 := (σ.alloc (σ.read p)).1
  let pl := (σ.alloc (σ.read p)).2
  let σ2 := σ1.write pl
    ((σ1.read pl).insert "Lambda" (((σ1.read pl).find? "Lambda").getD 0))
  let σ3 := σ2.write pl
    ((σ2.read pl).insert "mu" (((σ2.read pl).find? "mu").getD 0))
  allocOption σ3 (SIRModel.derivBody (σ3.read pl) (σ3.read c))

/-- Heap-level `SEIRModel._deriv` (source lines 126-139): reads both
argument objects, writes only into the freshly allocated `deriv` dict. -/
def SEIRModel.derivH (σ : Store) (p c : Ref) : Option (Store × Ref) :=
  allocOption σ (SEIRModel.deriv (σ.read p) (σ.read c))

/-- Heap-level `SISModel._deriv` (source lines 166-177): reads both
argument objects, writes only into the freshly allocated `deriv` dict. -/
def SISModel.derivH (σ : Store) (p c : Ref) : Option (Store × Ref) :=
  allocOption σ (SISModel.deriv (σ.read p) (σ.read c))

/-- A heap derivative function never disturbs pre-existing objects (it may
only allocate, or mutate objects it allocated itself). -/
def PreservesRefs (fH : Store → Ref → Ref → Option (Store × Ref)) : Prop :=
  ∀ σ (p c : Ref) σ2 (d : Ref), fH σ p c = some (σ2, d) → StoreExtends σ σ2

theorem sirDerivH_preserves : PreservesRefs SIRModel.derivH := by
  intro σ p c σ2 d h
  simp only [SIRModel.derivH] at h
  refine storeExtends_trans ?_ (allocOption_extends _ _ _ _ h)
  refine storeExtends_write_fresh _ _ ?_ (by simp [Store.alloc])
  exact storeExtends_write_fresh _ _ (storeExtends_alloc σ (σ.read p))
    (by simp [Store.alloc])

theorem seirDerivH_preserves : PreservesRefs SEIRModel.derivH := by
  intro σ p c σ2 d h
  exact allocOption_extends _ _ _ _ h

theorem sisDerivH_preserves : PreservesRefs SISModel.derivH := by
  intro σ p c σ2 d h
  exact allocOption_extends _ _ _ _ h

/-- Heap-level Euler loop (source lines 37-40): each iteration calls the
derivative on object references, allocates the comprehension result as a
fresh dict rebound to `x`, and appends a fresh copy `x.copy()` to the
result list.  Returns the final store and the references held by
`result_list`. -/
def eulerLoopH (fH : Store → Ref → Ref → Option (Store × Ref)) (p : Ref)
    (dt : ℚ) : Nat → Store → Ref → Option (Store × List Ref)
  | 0, σ, _ => some (σ, [])
  | m + 1, σ, x => do
    let sd ← fH σ p x
    let nd ← eulerStep (sd.1.read x) (sd.1.read sd.2) dt
    let σ2 := (sd.1.alloc nd).1
    let x2 := (sd.1.alloc nd).2
    let σ3 := (σ2.alloc (σ2.read x2)).1
    let xc := (σ2.alloc (σ2.read x2)).2
    let srefs ← eulerLoopH fH p dt m σ3 x2
    pure (srefs.1, xc :: srefs.2)

/-- Heap-level `get_numerical_results` state loop (source lines 34-40):
`x = self._initial_conditions.copy()` allocates,
`result_list.append(x.copy())` allocates again, then the Euler loop runs.
The trajectory is the list of references appended to `result_list`. -/
def runH (fH : Store → Ref → Ref → Option (Store × Ref)) (σ : Store)
    (p x0 : Ref) (n : Nat) (dt : ℚ) : Option (Store × List Ref) := do
  let σ1 := (σ.alloc (σ.read x0)).1
  let x := (σ.alloc (σ.read x0)).2
  let σ2 := (σ1.alloc (σ1.read x)).1
  let xc := (σ1.alloc (σ1.read x)).2
  let srefs ← eulerLoopH fH p dt (n - 1) σ2 x
  pure (srefs.1, xc :: srefs.2)

theorem eulerLoopH_extends (fH : Store → Ref → Ref → Option (Store × Ref))
    (hf : PreservesRefs fH) (p : Ref) (dt : ℚ) :
    ∀ (m : Nat) (σ : Store) (x : Ref) (σ2 : Store) (refs : List Ref),
      eulerLoopH fH p dt m σ x = some (σ2, refs) → StoreExtends σ σ2 := by
  intro m
  induction m with
  | zero =>
    intro σ x σ2 refs h
    simp [eulerLoopH] at h
    rw [← h.1]
    exact storeExtends_refl σ
  | succ m ih =>
    intro σ x σ2 refs h
    cases hfd : fH σ p x with
    | none => simp [eulerLoopH, hfd] at h
    | some sd =>
      cases hnd : eulerStep (sd.1.read x) (sd.1.read sd.2) dt with
      | none => simp [eulerLoopH, hfd, hnd] at h
      | some nd =>
        cases hre : eulerLoopH fH p dt m
            (((sd.1.alloc nd).1.alloc
              ((sd.1.alloc nd).1.read (sd.1.alloc nd).2)).1)
            ((sd.1.alloc nd).2) with
        | none => simp [eulerLoopH, hfd, hnd, hre] at h
        | some srefs =>
          simp [eulerLoopH, hfd, hnd, hre] at h
          have e1 : StoreExtends σ sd.1 := hf σ p x sd.1 sd.2 hfd
          have e2 := storeExtends_alloc sd.1 nd
          have e3 := storeExtends_alloc (sd.1.alloc nd).1
            ((sd.1.alloc nd).1.read (sd.1.alloc nd).2)
          have e4 := ih _ _ _ _ hre
          rw [← h.1]
          exact storeExtends_trans e1 (storeExtends_trans e2 (storeExtends_trans e3 e4))

theorem runH_extends (fH : Store → Ref → Ref → Option (Store × Ref))
    (hf : PreservesRefs fH) (σ : Store) (p x0 : Ref) (n : Nat) (dt : ℚ)
    (σ2 : Store) (refs : List Ref)
    (h : runH fH σ p x0 n dt = some (σ2, refs)) : StoreExtends σ σ2 := by
  cases hre : eulerLoopH fH p dt (n - 1)
      (((σ.alloc (σ.read x0)).1.alloc
        ((σ.alloc (σ.read x0)).1.read (σ.alloc (σ.read x0)).2)).1)
      ((σ.alloc (σ.read x0)).2) with
  | none => simp [runH, hre] at h
  | some srefs =>
    simp [runH, hre] at h
    have e1 := storeExtends_alloc σ (σ.read x0)
    have e2 := storeExtends_alloc (σ.alloc (σ.read x0)).1
      ((σ.alloc (σ.read x0)).1.read (σ.alloc (σ.read x0)).2)
    have e3 := eulerLoopH_extends fH hf p dt _ _ _ _ _ hre
    rw [← h.1]
    exact storeExtends_trans e1 (storeExtends_trans e2 e3)

/-- C9: no run and no derivative evaluation mutates its inputs.  Each
heap-level derivative leaves both argument objects (parameters and state)
unchanged — in particular `SIRModel._deriv` inserts its `Lambda`/`mu`
defaults only into its own fresh copy of the parameter dict — and a
heap-level run leaves both the stored parameter object and the stored
initial-condition object unchanged, for every derivative function that
itself preserves pre-existing objects. -/
theorem C9_no_mutation_of_stored_inputs :
    (∀ (σ : Store) (p c : Ref) (σ2 : Store) (d : Ref),
      SIRModel.derivH σ p c = some (σ2, d) → p < σ.length → c < σ.length →
      σ2.read p = σ.read p ∧ σ2.read c = σ.read c) ∧
    (∀ (σ : Store) (p c : Ref) (σ2 : Store) (d : Ref),
      SEIRModel.derivH σ p c = some (σ2, d) → p < σ.length → c < σ.length →
      σ2.read p = σ.read p ∧ σ2.read c = σ.read c) ∧
    (∀ (σ : Store) (p c : Ref) (σ2 : Store) (d : Ref),
      SISModel.derivH σ p c = some (σ2, d) → p < σ.length → c < σ.length →
      σ2.read p = σ.read p ∧ σ2.read c = σ.read c) ∧
    (∀ (fH : Store → Ref → Ref → Option (Store × Ref)) (σ : Store)
      (p x0 : Ref) (n : Nat) (dt : ℚ) (σ2 : Store) (refs : List Ref),
      PreservesRefs fH → runH fH σ p x0 n dt = some (σ2, refs) →
      p < σ.length → x0 < σ.length →
      σ2.read p = σ.read p ∧ σ2.read x0 = σ.read x0) := by
  refine ⟨?_, ?_, ?_, ?_⟩
  · intro σ p c σ2 d h hp hc
    have e := sirDerivH_preserves σ p c σ2 d h
    exact ⟨e.2 p hp, e.2 c hc⟩
  · intro σ p c σ2 d h hp hc
    have e := seirDerivH_preserves σ p c σ2 d h
    exact ⟨e.2 p hp, e.2 c hc⟩
  · intro σ p c σ2 d h hp hc
    have e := sisDerivH_preserves σ p c σ2 d h
    exact ⟨e.2 p hp, e.2 c hc⟩
  · intro fH σ p x0 n dt σ2 refs hf h hp hx
    have e := runH_extends fH hf σ p x0 n dt σ2 refs h
    exact ⟨e.2 p hp, e.2 x0 hx⟩

/-- Witness for C9: a concrete one-sample heap run leaves the parameter
object (ref 0) and the initial-condition object (ref 1) unchanged. -/
theorem C9_no_mutation_of_stored_inputs_witness :
    ∃ sr, runH SIRModel.derivH [[("S", 5)], [("I", 7)]] 0 1 1 2 = some sr ∧
      sr.1.read 0 = [("S", (5:ℚ))] ∧ sr.1.read 1 = [("I", (7:ℚ))] := by
  have hrun : runH SIRModel.derivH [[("S", 5)], [("I", 7)]] 0 1 1 2 =
      some ([[("S", 5)], [("I", 7)], [("I", 7)], [("I", 7)]], [3]) := rfl
  obtain ⟨h0, h1⟩ := C9_no_mutation_of_stored_inputs.2.2.2 SIRModel.derivH
    [[("S", 5)], [("I", 7)]] 0 1 1 2 _ _ sirDerivH_preserves hrun
    (by norm_num) (by norm_num)
  exact ⟨_, hrun, by rw [h0]; rfl, by rw [h1]; rfl⟩
